import Mathlib

/-!
Shallow embedding of `openchain/crypto/node_eca.go` (enrollment-certificate
acquisition and trust bootstrap client) and proofs about it.

Conventions of the embedding:
* Byte strings are `List Nat`.
* External collaborators (the x509 parser, protobuf marshalling, the ECDSA
  primitives, the gRPC channel to the ECA) are parameters, gathered into
  environment structures; theorems assume only their documented contracts.
* Go's multi-value returns `(v, err)` where the source discards `err` with
  `_` are modelled as pairs, and the embedding takes `.1` exactly where the
  source writes `_` for the error.
* `crypto/rand` is modelled as a draw counter threaded through the code:
  each primitive that reads the random source consumes one position.
* The filesystem is a map from paths to files; the trust-chain file content
  is kept at the granularity of decoded PEM blocks (the textual
  certificate-block format is a faithful bijection at this level).
-/

namespace NodeEca

/-- Byte strings. -/
abbrev Bytes := List Nat

/-- A decoded PEM block (`encoding/pem`): type line, optional headers, payload. -/
structure PEMBlock where
  type : String
  headers : List (String × String)
  bytes : Bytes
deriving DecidableEq, Repr

/-- A file: its content (as decoded PEM blocks) and its permission mode. -/
structure FileData where
  content : List PEMBlock
  mode : Nat
deriving DecidableEq, Repr

/-- The filesystem: a partial map from paths to files. -/
abbrev FS := String → Option FileData

/-- External x509 facilities used by the node (`utils.DERToX509Certificate`
is a thin wrapper over `crypto/x509.ParseCertificate`; parsed certificates
are identified with the value the parser returns). -/
structure X509Env where
  DERToX509Certificate : Bytes → Except String Bytes

/-- Modelled from the spec: `utils.DERCertToPEM` (repository code outside the
visible slice) wraps raw DER certificate bytes into the "textual
certificate-block format": a single PEM block of type CERTIFICATE with no
headers whose payload is exactly the DER bytes. -/
def DERCertToPEM (der : Bytes) : List PEMBlock :=
  [⟨"CERTIFICATE", [], der⟩]

/-- Embedding of Go stdlib `crypto/x509.(*CertPool).AppendCertsFromPEM`:
walks the PEM blocks, skips any block whose type is not CERTIFICATE or that
has headers, skips blocks whose payload does not parse as a certificate,
adds each parsed certificate to the pool, and reports whether at least one
certificate was added. -/
def AppendCertsFromPEM (E : X509Env) (pool : List Bytes) :
    List PEMBlock → List Bytes × Bool
  | [] => (pool, false)
  | b :: rest =>
    if b.type = "CERTIFICATE" ∧ b.headers = [] then
      match E.DERToX509Certificate b.bytes with
      | .ok cert => ((AppendCertsFromPEM E (pool ++ [cert]) rest).1, true)
      | .error _ => AppendCertsFromPEM E pool rest
    else AppendCertsFromPEM E pool rest

/-- Embedding of `nodeImpl.loadECACertsChain` (node_eca.go lines 68-86):
read the trust-chain file, append its certificates into the node's
`rootsCertPool`, and fail if reading fails or no certificate was appended.
The resulting pool is returned explicitly (the source mutates
`node.rootsCertPool`). -/
def loadECACertsChain (E : X509Env) (fs : FS) (path : String)
    (rootsCertPool : List Bytes) : Except String (List Bytes) :=
  match fs path with
  | none => .error "Failed loading ECA certificates chain"
  | some file =>
    match AppendCertsFromPEM E rootsCertPool file.content with
    | (pool, true) => .ok pool
    | (_, false) => .error "Failed appending ECA certificates chain."

/-- Primitive filesystem operations, to make intermediate states of a write
observable. `ioutil.WriteFile` opens with O_WRONLY|O_CREATE|O_TRUNC (creating
the file with the given mode only when absent; an existing file keeps its
mode) and then writes the data. -/
inductive FSOp where
  | truncate (path : String) (mode : Nat)
  | write (path : String) (content : List PEMBlock)
  | rename (src dst : String)
deriving DecidableEq, Repr

/-- Apply one filesystem operation. -/
def applyFSOp (fs : FS) : FSOp → FS
  | .truncate p m => fun q =>
      if q = p then
        match fs p with
        | some file => some ⟨[], file.mode⟩
        | none => some ⟨[], m⟩
      else fs q
  | .write p c => fun q =>
      if q = p then (fs p).map (fun file => ⟨c, file.mode⟩) else fs q
  | .rename src dst => fun q =>
      if q = dst then fs src else if q = src then none else fs q

/-- Apply a sequence of filesystem operations in order. -/
def applyFSOps (fs : FS) (ops : List FSOp) : FS :=
  ops.foldl applyFSOp fs

/-- The operation sequence of `ioutil.WriteFile path data perm`: truncate (or
create with `perm`) the target path, then write the data — directly at the
target path, with no temporary file and no rename. -/
def writeFileOps (path : String) (content : List PEMBlock) (perm : Nat) :
    List FSOp :=
  [.truncate path perm, .write path content]

/-- `ioutil.WriteFile` as a whole-file update: both steps applied. -/
def writeFile (fs : FS) (path : String) (content : List PEMBlock)
    (perm : Nat) : FS :=
  applyFSOps fs (writeFileOps path content perm)

/-- Enrollment-CA read request (`obcca.ECertReadReq`): an identity and an
optional signature (left nil by this client). -/
structure ECertReadReq where
  id : String
  sig? : Option Unit
deriving DecidableEq, Repr

/-- Messages this client can put on the wire of the `ECAP.ReadCACertificate`
RPC: either `protobuf.Empty` or a read request. -/
inductive ECAPWireMsg where
  | empty
  | readReq (req : ECertReadReq)
deriving DecidableEq, Repr

/-- The gRPC channel to the ECA for certificate reads: dialing may fail, and
the remote `ReadCACertificate` call answers a wire message with certificate
bytes or an error. -/
structure ECAReadChannel where
  dialErr : Option String
  ReadCACertificate : ECAPWireMsg → Except String Bytes

/-- Embedding of `nodeImpl.callECAReadCACertificate` (node_eca.go lines
109-128): dial the ECA, then invoke `ReadCACertificate` passing
`protobuf.Empty` — the `inReq` argument is never put on the wire. -/
def callECAReadCACertificate (ch : ECAReadChannel) (inReq : ECertReadReq) :
    Except String Bytes :=
  match ch.dialErr with
  | some e => .error e
  | none => ch.ReadCACertificate .empty

/-- The read request literal built by `getECACertificate` (node_eca.go line
194): identity id "eca-root", signature nil. -/
def ecaRootReadReq : ECertReadReq := ⟨"eca-root", none⟩

/-- Embedding of `nodeImpl.getECACertificate` (node_eca.go lines 192-204):
build the read request and delegate to `callECAReadCACertificate`. -/
def getECACertificate (ch : ECAReadChannel) : Except String Bytes :=
  callECAReadCACertificate ch ecaRootReadReq

/-- Embedding of `nodeImpl.retrieveECACertsChain` (node_eca.go lines 39-66):
fetch the ECA certificate, parse it (returning the parse error on failure,
before any write), then store its PEM encoding at the configured path with
mode 0700 via `ioutil.WriteFile`. Returns the outcome together with the
resulting filesystem. -/
def retrieveECACertsChain (E : X509Env) (ch : ECAReadChannel) (fs : FS)
    (path : String) : Except String Unit × FS :=
  match getECACertificate ch with
  | .error e => (.error e, fs)
  | .ok ecaCertRaw =>
    match E.DERToX509Certificate ecaCertRaw with
    | .error e => (.error e, fs)
    | .ok _ => (.ok (), writeFile fs path (DERCertToPEM ecaCertRaw) 0o700)

/-- Owner-only permissions: owner bits are rwx, group and other bits empty. -/
def ownerOnlyMode (m : Nat) : Bool :=
  m / 64 % 8 = 7 && m / 8 % 8 = 0 && m % 8 = 0

/-- The crypto type tag (`obcca.CryptoType`); this client only uses ECDSA. -/
inductive CryptoType where
  | ECDSA
deriving DecidableEq, Repr

/-- `protobuf.Timestamp`: seconds and nanoseconds. -/
structure TimestampMsg where
  seconds : Int
  nanos : Int
deriving DecidableEq, Repr

/-- `obcca.PublicKey`: crypto type tag and marshalled key bytes. -/
structure PublicKeyMsg where
  type : CryptoType
  key : Bytes
deriving DecidableEq, Repr

/-- `obcca.Signature`: crypto type tag and the text-encoded R and S
components of an ECDSA signature. -/
structure SignatureMsg where
  type : CryptoType
  r : Bytes
  s : Bytes
deriving DecidableEq, Repr

/-- `obcca.ECertCreateReq`: timestamp, identity, password, public key and
optional signature. -/
structure ECertCreateReq where
  ts : TimestampMsg
  id : String
  pw : String
  pub : PublicKeyMsg
  sig : Option SignatureMsg
deriving DecidableEq, Repr

/-- External cryptographic and serialization facilities used by
`getEnrollmentCertificateFromECA`, over opaque private/public key types.
Fallible Go functions returning `(value, err)` are pairs so that the
embedding can discard the error exactly where the source writes `_`.
`keyOf n` is the ECDSA key produced by `utils.NewECDSAKey` from random draw
`n`, `keyGenErr n` its possible failure; `ecdsaSign` also consumes a random
draw (the signature nonce). `unmarshalPKIXPublicKey` and `ecdsaVerify` are
the verifier-side counterparts used only to state properties. -/
structure CryptoEnv (Priv Pub : Type) where
  keyOf : Nat → Priv
  keyGenErr : Nat → Option String
  publicKey : Priv → Pub
  marshalPKIXPublicKey : Pub → Bytes × Option String
  unmarshalPKIXPublicKey : Bytes → Option Pub
  protoMarshal : ECertCreateReq → Bytes × Option String
  hash : Bytes → Bytes
  ecdsaSign : Priv → Nat → Bytes → Except String (Int × Int)
  marshalText : Int → Bytes × Option String
  ecdsaVerify : Pub → Bytes → Bytes × Bytes → Bool

/-- The gRPC channel to the ECA for certificate creation: dialing may fail,
and the remote `CreateCertificate` call answers an `ECertCreateReq` with
certificate bytes and key material, or an error. -/
structure ECACreateChannel where
  dialErr : Option String
  CreateCertificate : ECertCreateReq → Except String (Bytes × Bytes)

/-- Embedding of `nodeImpl.callECACreateCertificate` (node_eca.go lines
88-107): dial the ECA, then invoke `CreateCertificate` with the request. -/
def callECACreateCertificate (ch : ECACreateChannel) (req : ECertCreateReq) :
    Except String (Bytes × Bytes) :=
  match ch.dialErr with
  | some e => .error e
  | none => ch.CreateCertificate req

/-- Embedding of node_eca.go lines 160-175 (the request-building and signing
part of `getEnrollmentCertificateFromECA`): marshal the public key
(discarding the error, as the source's `pubraw, _ :=` does), build the
request with timestamp (now, 0 nanoseconds) and signature nil, marshal it
(error again discarded), sign the hash of the marshalled bytes with the
private key (nonce drawn at position `n`), and attach the text-encoded
signature components (their marshal errors again discarded). -/
def buildSignedECertCreateReq {Priv Pub : Type} (E : CryptoEnv Priv Pub)
    (priv : Priv) (id pw : String) (now : Int) (n : Nat) :
    Except String ECertCreateReq :=
  let pubraw := (E.marshalPKIXPublicKey (E.publicKey priv)).1
  let req : ECertCreateReq :=
    ⟨⟨now, 0⟩, id, pw, ⟨.ECDSA, pubraw⟩, none⟩
  let rawreq := (E.protoMarshal req).1
  match E.ecdsaSign priv n (E.hash rawreq) with
  | .error e => .error e
  | .ok (r, s) =>
    .ok { req with sig := some ⟨.ECDSA, (E.marshalText r).1, (E.marshalText s).1⟩ }

/-- Embedding of `nodeImpl.getEnrollmentCertificateFromECA` (node_eca.go
lines 151-190): generate a fresh ECDSA key (random draw `n`), build and sign
the enrollment request (nonce draw `n+1`), submit it over the channel, and
return the private key with the issued certificate and key material. The
second component is the next unused random-draw position. -/
def getEnrollmentCertificateFromECA {Priv Pub : Type} (E : CryptoEnv Priv Pub)
    (ch : ECACreateChannel) (id pw : String) (now : Int) (n : Nat) :
    Except String (Priv × Bytes × Bytes) × Nat :=
  match E.keyGenErr n with
  | some e => (.error e, n + 1)
  | none =>
    let priv := E.keyOf n
    match buildSignedECertCreateReq E priv id pw now (n + 1) with
    | .error e => (.error e, n + 2)
    | .ok req =>
      match callECACreateCertificate ch req with
      | .error e => (.error e, n + 2)
      | .ok (cert, key) => (.ok (priv, cert, key), n + 2)

/-- A PEM block that `AppendCertsFromPEM` accepts: type CERTIFICATE, no
headers, payload parses as a certificate. -/
def IsParsableCertBlock (E : X509Env) (b : PEMBlock) : Prop :=
  b.type = "CERTIFICATE" ∧ b.headers = [] ∧
    ∃ cert, E.DERToX509Certificate b.bytes = .ok cert

/-! ### Concrete environments used to witness the theorems -/

/-- x509 environment whose parser accepts everything (identifying a parsed
certificate with its DER bytes). -/
def X0 : X509Env := ⟨fun b => .ok b⟩

/-- x509 environment whose parser rejects everything. -/
def X1 : X509Env := ⟨fun _ => .error "asn1 structure error"⟩

/-- ECA read channel that dials fine and answers with the bytes [1, 2]. -/
def chOk : ECAReadChannel := ⟨none, fun _ => .ok [1, 2]⟩

/-- The empty filesystem. -/
def fsEmpty : FS := fun _ => none

/-- Filesystem holding an empty trust-chain file at path "chain". -/
def fsChainEmpty : FS :=
  fun p => if p = "chain" then some ⟨[], 0o700⟩ else none

/-- Filesystem holding a previously pinned trust chain at path "chain". -/
def fsOld : FS :=
  fun p => if p = "chain" then some ⟨[⟨"CERTIFICATE", [], [9]⟩], 0o700⟩ else none

/-- Filesystem holding a pre-existing group/other-readable file at "chain". -/
def fsLax : FS :=
  fun p => if p = "chain" then some ⟨[], 0o644⟩ else none

/-- Crypto environment over Nat keys where every primitive succeeds. -/
def E0 : CryptoEnv Nat Nat :=
  ⟨fun n => n, fun _ => none, fun k => k, fun p => ([p], none),
   fun b => b.head?, fun r => ([r.pub.key.length], none), fun b => b,
   fun _ _ _ => .ok (0, 0), fun z => ([z.natAbs], none), fun _ _ _ => true⟩

/-- Crypto environment over Nat keys where every marshalling step reports an
error alongside its bytes (and all other primitives succeed). -/
def E1 : CryptoEnv Nat Nat :=
  ⟨fun n => n, fun _ => none, fun k => k,
   fun p => ([p], some "pubkey marshal error"), fun b => b.head?,
   fun r => ([r.pub.key.length], some "proto marshal error"), fun b => b,
   fun _ _ _ => .ok (0, 0), fun z => ([z.natAbs], some "text marshal error"),
   fun _ _ _ => true⟩

/-- Crypto environment over Nat keys whose key generation always fails. -/
def EkeyFail : CryptoEnv Nat Nat :=
  ⟨fun n => n, fun _ => some "keygen entropy failure", fun k => k,
   fun p => ([p], none), fun b => b.head?,
   fun r => ([r.pub.key.length], none), fun b => b,
   fun _ _ _ => .ok (0, 0), fun z => ([z.natAbs], none), fun _ _ _ => true⟩

/-- ECA create channel that dials fine and issues certificate [7], key [8]. -/
def cc0 : ECACreateChannel := ⟨none, fun _ => .ok ([7], [8])⟩

/-- The enrollment request `buildSignedECertCreateReq E0 5 "alice" "pw123"
17 1` evaluates to. -/
def enrollReq0 : ECertCreateReq :=
  ⟨⟨17, 0⟩, "alice", "pw123", ⟨.ECDSA, [5]⟩, some ⟨.ECDSA, [0], [0]⟩⟩

/-! ### Helper lemmas -/

/-- Appending never removes certificates from the pool. -/
theorem appendCertsFromPEM_length_le (E : X509Env) :
    ∀ (blocks : List PEMBlock) (pool : List Bytes),
      pool.length ≤ (AppendCertsFromPEM E pool blocks).1.length := by
  intro blocks
  induction blocks with
  | nil => intro pool; simp [AppendCertsFromPEM]
  | cons b rest ih =>
    intro pool
    rw [AppendCertsFromPEM]
    split
    · cases hparse : E.DERToX509Certificate b.bytes with
      | ok cert =>
        calc pool.length ≤ (pool ++ [cert]).length := by simp
          _ ≤ (AppendCertsFromPEM E (pool ++ [cert]) rest).1.length := ih _
      | error e => exact ih pool
    · exact ih pool

/-- If no block of the file is an acceptable certificate block, appending
adds nothing and reports failure. -/
theorem appendCertsFromPEM_all_bad (E : X509Env) :
    ∀ (blocks : List PEMBlock) (pool : List Bytes),
      (∀ b ∈ blocks, ¬ IsParsableCertBlock E b) →
      AppendCertsFromPEM E pool blocks = (pool, false) := by
  intro blocks
  induction blocks with
  | nil => intro pool _; rfl
  | cons b rest ih =>
    intro pool hbad
    rw [AppendCertsFromPEM]
    split
    · next hb =>
      cases hparse : E.DERToX509Certificate b.bytes with
      | ok cert =>
        exact absurd ⟨hb.1, hb.2, cert, hparse⟩ (hbad b (List.mem_cons_self b rest))
      | error e =>
        exact ih pool fun x hx => hbad x (List.mem_cons_of_mem b hx)
    · exact ih pool fun x hx => hbad x (List.mem_cons_of_mem b hx)

/-- A successful append added at least one certificate to the pool. -/
theorem appendCertsFromPEM_true_grows (E : X509Env) :
    ∀ (blocks : List PEMBlock) (pool : List Bytes),
      (AppendCertsFromPEM E pool blocks).2 = true →
      pool.length < (AppendCertsFromPEM E pool blocks).1.length := by
  intro blocks
  induction blocks with
  | nil => intro pool h; simp [AppendCertsFromPEM] at h
  | cons b rest ih =>
    intro pool
    rw [AppendCertsFromPEM]
    split
    · cases hparse : E.DERToX509Certificate b.bytes with
      | ok cert =>
        intro _
        calc pool.length < (pool ++ [cert]).length := by simp
          _ ≤ (AppendCertsFromPEM E (pool ++ [cert]) rest).1.length :=
            appendCertsFromPEM_length_le E rest _
      | error e => exact ih pool
    · exact ih pool

/-! ### Claim theorems -/

/-- C2: for every byte sequence C that encodes a certificate (as the persist
site of retrieveECACertsChain guarantees by parsing before writing), loading
the trust chain with loadECACertsChain after persisting it with the
WriteFile step at the same path succeeds and yields a trust pool holding
exactly the certificate encoded in C on top of the initial pool. -/
theorem C2_load_after_persist_roundtrip (E : X509Env) (C cert : Bytes)
    (hC : E.DERToX509Certificate C = .ok cert)
    (fs : FS) (path : String) (pool : List Bytes) :
    loadECACertsChain E (writeFile fs path (DERCertToPEM C) 0o700) path pool
      = .ok (pool ++ [cert]) := by
  obtain ⟨m, hfile⟩ :
      ∃ m, writeFile fs path (DERCertToPEM C) 0o700 path
        = some ⟨DERCertToPEM C, m⟩ := by
    cases h : fs path with
    | none =>
      exact ⟨0o700, by simp [writeFile, applyFSOps, writeFileOps, applyFSOp, h]⟩
    | some f =>
      exact ⟨f.mode, by simp [writeFile, applyFSOps, writeFileOps, applyFSOp, h]⟩
  simp only [loadECACertsChain, hfile]
  simp [AppendCertsFromPEM, DERCertToPEM, hC]

/-- Witness for C2: persisting the parseable bytes [1, 2] on the empty
filesystem and loading them back yields exactly that certificate. -/
theorem C2_load_after_persist_roundtrip_witness :
    loadECACertsChain X0 (writeFile fsEmpty "chain" (DERCertToPEM [1, 2]) 0o700)
        "chain" [] = .ok [[1, 2]] :=
  C2_load_after_persist_roundtrip X0 [1, 2] [1, 2] rfl fsEmpty "chain" []

/-- C3: if the trust-chain file exists but holds zero acceptable certificate
blocks (in particular if it is empty), loadECACertsChain returns the append
error; and whenever it succeeds, the trust pool strictly grew, so it never
succeeds with an empty (or unchanged) pool. -/
theorem C3_load_fails_without_certs (E : X509Env) (fs : FS) (path : String)
    (pool : List Bytes) (file : FileData) (hf : fs path = some file) :
    ((∀ b ∈ file.content, ¬ IsParsableCertBlock E b) →
        loadECACertsChain E fs path pool
          = .error "Failed appending ECA certificates chain.") ∧
    (∀ pool', loadECACertsChain E fs path pool = .ok pool' →
        pool.length < pool'.length) := by
  constructor
  · intro hbad
    simp only [loadECACertsChain, hf]
    rw [appendCertsFromPEM_all_bad E file.content pool hbad]
  · intro pool' hok
    simp only [loadECACertsChain, hf] at hok
    rcases hres : AppendCertsFromPEM E pool file.content with ⟨p, flag⟩
    rw [hres] at hok
    have hgrow := appendCertsFromPEM_true_grows E file.content pool
    rw [hres] at hgrow
    cases flag with
    | true =>
      simp only [] at hok
      simp at hok
      subst hok
      exact hgrow rfl
    | false => simp at hok

/-- Witness for C3: loading an empty trust-chain file fails. -/
theorem C3_load_fails_without_certs_witness :
    loadECACertsChain X0 fsChainEmpty "chain" []
      = .error "Failed appending ECA certificates chain." :=
  (C3_load_fails_without_certs X0 fsChainEmpty "chain" [] ⟨[], 0o700⟩
      (by simp [fsChainEmpty])).1 (by intro b hb; simp at hb)

/-- C5 counterexample: the persist step of retrieveECACertsChain is the
plain WriteFile operation sequence run directly at the target path;
stopping it after the truncate step leaves at that path a file that is
neither the prior chain nor the new one, so a partially written trust file
is application-visible during an interrupted persist. -/
theorem C5_counterexample_partial_write_visible :
    (retrieveECACertsChain X0 chOk fsOld "chain").2
      = applyFSOps fsOld (writeFileOps "chain" (DERCertToPEM [1, 2]) 0o700) ∧
    applyFSOps fsOld
        ((writeFileOps "chain" (DERCertToPEM [1, 2]) 0o700).take 1) "chain"
      ≠ fsOld "chain" ∧
    applyFSOps fsOld
        ((writeFileOps "chain" (DERCertToPEM [1, 2]) 0o700).take 1) "chain"
      ≠ applyFSOps fsOld (writeFileOps "chain" (DERCertToPEM [1, 2]) 0o700)
          "chain" := by
  refine ⟨rfl, by decide, by decide⟩

/-- C5 amended: persist performs a direct WriteFile at the target path —
every operation of its sequence is a truncate or a write on that very path,
never a rename of a temporary file — and only a completed, uninterrupted
run leaves exactly the PEM-encoded chain there. -/
theorem C5_amended_direct_write (C : Bytes) (path : String) (fs : FS) :
    (∀ op ∈ writeFileOps path (DERCertToPEM C) 0o700,
        op = FSOp.truncate path 0o700 ∨ op = FSOp.write path (DERCertToPEM C)) ∧
    ∃ m, writeFile fs path (DERCertToPEM C) 0o700 path
        = some ⟨DERCertToPEM C, m⟩ := by
  constructor
  · intro op hop
    simp only [writeFileOps, List.mem_cons, List.not_mem_nil, or_false] at hop
    exact hop
  · cases h : fs path with
    | none =>
      exact ⟨0o700, by simp [writeFile, applyFSOps, writeFileOps, applyFSOp, h]⟩
    | some f =>
      exact ⟨f.mode, by simp [writeFile, applyFSOps, writeFileOps, applyFSOp, h]⟩

/-- Witness for the amended C5 at a concrete chain, path and filesystem. -/
theorem C5_amended_direct_write_witness :
    FSOp.truncate "chain" 0o700 = FSOp.truncate "chain" 0o700 ∨
      FSOp.truncate "chain" 0o700 = FSOp.write "chain" (DERCertToPEM [1, 2]) :=
  (C5_amended_direct_write [1, 2] "chain" fsEmpty).1 _
    (by simp [writeFileOps])

/-- C6 counterexample: the read request built by getECACertificate carries
the identity hint "eca-root", not "ca-root". -/
theorem C6_counterexample_identity_hint :
    ecaRootReadReq.id = "eca-root" ∧ ecaRootReadReq.id ≠ "ca-root" :=
  ⟨rfl, by decide⟩

/-- C6 amended: getECACertificate builds a read request whose identity hint
is the string "eca-root"; the underlying callECAReadCACertificate transmits
protobuf.Empty (the request is never put on the wire), and the fetch fails
only when dialing fails or the remote read fails. -/
theorem C6_amended_eca_root_hint (ch : ECAReadChannel) :
    ecaRootReadReq.id = "eca-root" ∧
    (ch.dialErr = none → getECACertificate ch = ch.ReadCACertificate .empty) ∧
    (∀ e, getECACertificate ch = .error e →
        ch.dialErr = some e ∨ ch.ReadCACertificate .empty = .error e) := by
  refine ⟨rfl, ?_, ?_⟩
  · intro h
    simp [getECACertificate, callECAReadCACertificate, h]
  · intro e he
    cases h : ch.dialErr with
    | some e' =>
      left
      simp [getECACertificate, callECAReadCACertificate, h] at he
      rw [he]
    | none =>
      right
      simpa [getECACertificate, callECAReadCACertificate, h] using he

/-- Witness for the amended C6 on a channel that dials successfully. -/
theorem C6_amended_eca_root_hint_witness :
    ecaRootReadReq.id = "eca-root" ∧
      getECACertificate chOk = chOk.ReadCACertificate .empty :=
  ⟨(C6_amended_eca_root_hint chOk).1, (C6_amended_eca_root_hint chOk).2.1 rfl⟩

/-- C7: when the fetched bytes fail to parse as a certificate,
retrieveECACertsChain returns the parse error and leaves the filesystem
untouched — so the trust-chain file write is never performed and the trust
sub-flow ends in failure. -/
theorem C7_parse_error_before_persist (E : X509Env) (ch : ECAReadChannel)
    (fs : FS) (path : String) (raw : Bytes) (e : String)
    (hfetch : getECACertificate ch = .ok raw)
    (hparse : E.DERToX509Certificate raw = .error e) :
    retrieveECACertsChain E ch fs path = (.error e, fs) := by
  simp [retrieveECACertsChain, hfetch, hparse]

/-- Witness for C7 with a parser that rejects the fetched bytes. -/
theorem C7_parse_error_before_persist_witness :
    retrieveECACertsChain X1 chOk fsEmpty "chain"
      = (.error "asn1 structure error", fsEmpty) :=
  C7_parse_error_before_persist X1 chOk fsEmpty "chain" [1, 2]
    "asn1 structure error" rfl rfl

/-- C8 counterexample: persisting over a pre-existing trust-chain file keeps
that file's prior permissions — here mode 0644, so group and others retain
read access — even though the persist succeeds; WriteFile's 0700 mode
argument applies only when it creates the file. -/
theorem C8_counterexample_existing_file_mode :
    (retrieveECACertsChain X0 chOk fsLax "chain").1 = .ok () ∧
    (retrieveECACertsChain X0 chOk fsLax "chain").2 "chain"
      = some ⟨DERCertToPEM [1, 2], 0o644⟩ ∧
    ownerOnlyMode 0o644 = false :=
  ⟨rfl, by decide, by decide⟩

/-- C8 amended: when the trust-chain file did not previously exist, a
successful retrieveECACertsChain creates it with mode 0700 — owner
read/write/execute and no access for group or others; a pre-existing file
instead keeps its previous mode. -/
theorem C8_amended_fresh_file_owner_only (E : X509Env) (ch : ECAReadChannel)
    (fs : FS) (path : String) (hfresh : fs path = none)
    (hok : (retrieveECACertsChain E ch fs path).1 = .ok ()) :
    ∃ file, (retrieveECACertsChain E ch fs path).2 path = some file ∧
      file.mode = 0o700 ∧ ownerOnlyMode file.mode = true := by
  rcases hf : getECACertificate ch with e | raw
  · simp [retrieveECACertsChain, hf] at hok
  · rcases hp : E.DERToX509Certificate raw with e | cert
    · simp [retrieveECACertsChain, hf, hp] at hok
    · refine ⟨⟨DERCertToPEM raw, 0o700⟩, ?_, rfl, ?_⟩
      · simp [retrieveECACertsChain, hf, hp, writeFile, applyFSOps, writeFileOps,
          applyFSOp, hfresh]
      · show ownerOnlyMode 0o700 = true
        decide

/-- Witness for the amended C8: a fresh persist on the empty filesystem
leaves an owner-only 0700 trust-chain file. -/
theorem C8_amended_fresh_file_owner_only_witness :
    ∃ file, (retrieveECACertsChain X0 chOk fsEmpty "chain").2 "chain"
        = some file ∧ file.mode = 0o700 ∧ ownerOnlyMode file.mode = true :=
  C8_amended_fresh_file_owner_only X0 chOk fsEmpty "chain" rfl rfl

/-- A successful enrollment call returns the key generated from draw `n`
and leaves the draw counter at `n + 2`. -/
theorem getEnrollment_ok_key {Priv Pub : Type} (E : CryptoEnv Priv Pub)
    (ch : ECACreateChannel) (id pw : String) (now : Int) (n n' : Nat)
    (k : Priv) (c m : Bytes)
    (h : getEnrollmentCertificateFromECA E ch id pw now n = (.ok (k, c, m), n')) :
    k = E.keyOf n ∧ n' = n + 2 := by
  unfold getEnrollmentCertificateFromECA at h
  rcases hk : E.keyGenErr n with _ | e
  · simp only [hk] at h
    rcases hb : buildSignedECertCreateReq E (E.keyOf n) id pw now (n + 1)
      with e | req
    · simp only [hb] at h
      simp at h
    · simp only [hb] at h
      rcases hc : callECACreateCertificate ch req with e | ⟨cert, key⟩
      · simp only [hc] at h
        simp at h
      · simp only [hc, Prod.mk.injEq, Except.ok.injEq] at h
        obtain ⟨⟨hkk, -, -⟩, hn⟩ := h
        exact ⟨hkk.symm, hn.symm⟩
  · simp only [hk] at h
    simp at h

/-- C1: the signature attached by the request-building step of
getEnrollmentCertificateFromECA is computed over the hash of the byte
serialization of the request with the signature field still nil; hence,
assuming the ECDSA verify/sign contract and the PKIX marshalling
round-trip, it verifies against the embedded public key over the canonical
serialization with the signature cleared. -/
theorem C1_signature_verifies_over_cleared_serialization {Priv Pub : Type}
    (E : CryptoEnv Priv Pub)
    (hverify : ∀ (k : Priv) (m : Nat) (msg : Bytes) (r s : Int),
        E.ecdsaSign k m msg = .ok (r, s) →
        E.ecdsaVerify (E.publicKey k) msg
          ((E.marshalText r).1, (E.marshalText s).1) = true)
    (hpk : ∀ p, E.unmarshalPKIXPublicKey (E.marshalPKIXPublicKey p).1 = some p)
    (priv : Priv) (id pw : String) (now : Int) (n : Nat) (req : ECertCreateReq)
    (hbuild : buildSignedECertCreateReq E priv id pw now n = .ok req) :
    ∃ σ, req.sig = some σ ∧
      E.unmarshalPKIXPublicKey req.pub.key = some (E.publicKey priv) ∧
      E.ecdsaVerify (E.publicKey priv)
        (E.hash (E.protoMarshal { req with sig := none }).1)
        (σ.r, σ.s) = true := by
  simp only [buildSignedECertCreateReq] at hbuild
  rcases hs : E.ecdsaSign priv n (E.hash (E.protoMarshal
      ⟨⟨now, 0⟩, id, pw, ⟨.ECDSA, (E.marshalPKIXPublicKey (E.publicKey priv)).1⟩,
        none⟩).1) with e | ⟨r, s⟩
  · rw [hs] at hbuild
    simp at hbuild
  · rw [hs] at hbuild
    simp only [Except.ok.injEq] at hbuild
    subst hbuild
    exact ⟨⟨.ECDSA, (E.marshalText r).1, (E.marshalText s).1⟩, rfl, hpk _,
      hverify priv n _ r s hs⟩

/-- Witness for C1 in a concrete environment satisfying the crypto
contracts. -/
theorem C1_signature_verifies_witness :
    ∃ σ, enrollReq0.sig = some σ ∧
      E0.unmarshalPKIXPublicKey enrollReq0.pub.key = some (E0.publicKey 5) ∧
      E0.ecdsaVerify (E0.publicKey 5)
        (E0.hash (E0.protoMarshal { enrollReq0 with sig := none }).1)
        (σ.r, σ.s) = true :=
  C1_signature_verifies_over_cleared_serialization E0
    (fun _ _ _ _ _ _ => rfl) (fun _ => rfl) 5 "alice" "pw123" 17 1
    enrollReq0 rfl

/-- C4 counterexample: with an environment whose public-key marshalling and
request marshalling report errors, getEnrollmentCertificateFromECA still
succeeds — the serialization failures are discarded by the blank
identifiers, not surfaced to the caller. -/
theorem C4_counterexample_marshal_error_swallowed :
    (E1.marshalPKIXPublicKey (E1.publicKey (E1.keyOf 0))).2
      = some "pubkey marshal error" ∧
    (E1.protoMarshal ⟨⟨17, 0⟩, "alice", "pw123", ⟨.ECDSA, [0]⟩, none⟩).2
      = some "proto marshal error" ∧
    (getEnrollmentCertificateFromECA E1 cc0 "alice" "pw123" 17 0).1
      = .ok (0, [7], [8]) :=
  ⟨rfl, rfl, rfl⟩

/-- C4 amended: key-generation failures and signing failures (and RPC
failures) are surfaced to the caller as errors, but the error values of the
serialization steps — public-key marshalling, request marshalling and
signature-component encoding — are discarded: the outcome of
getEnrollmentCertificateFromECA does not depend on them. -/
theorem C4_amended_serialization_errors_discarded {Priv Pub : Type}
    (E : CryptoEnv Priv Pub) (ch : ECACreateChannel) (id pw : String)
    (now : Int) (n : Nat) (f : Pub → Option String)
    (g : ECertCreateReq → Option String) (t : Int → Option String) :
    (∀ e, E.keyGenErr n = some e →
        (getEnrollmentCertificateFromECA E ch id pw now n).1 = .error e) ∧
    (∀ e, E.keyGenErr n = none →
        buildSignedECertCreateReq E (E.keyOf n) id pw now (n + 1) = .error e →
        (getEnrollmentCertificateFromECA E ch id pw now n).1 = .error e) ∧
    getEnrollmentCertificateFromECA
        ⟨E.keyOf, E.keyGenErr, E.publicKey,
          fun p => ((E.marshalPKIXPublicKey p).1, f p),
          E.unmarshalPKIXPublicKey,
          fun r => ((E.protoMarshal r).1, g r),
          E.hash, E.ecdsaSign,
          fun z => ((E.marshalText z).1, t z),
          E.ecdsaVerify⟩
        ch id pw now n
      = getEnrollmentCertificateFromECA E ch id pw now n := by
  refine ⟨?_, ?_, ?_⟩
  · intro e he
    simp [getEnrollmentCertificateFromECA, he]
  · intro e hk hb
    simp [getEnrollmentCertificateFromECA, hk, hb]
  · rfl

/-- Witness for the amended C4: a key-generation failure is surfaced. -/
theorem C4_amended_serialization_errors_discarded_witness :
    (getEnrollmentCertificateFromECA EkeyFail cc0 "alice" "pw123" 17 0).1
      = .error "keygen entropy failure" :=
  (C4_amended_serialization_errors_discarded EkeyFail cc0 "alice" "pw123" 17 0
      (fun _ => none) (fun _ => none) (fun _ => none)).1
    "keygen entropy failure" rfl

/-- C9: two sequential enrollment attempts draw their ECDSA keys at
distinct positions of the random source — the first call's key comes from
draw n, the second call's from the strictly later position the first call
left off at — so no key material from one call is reused by the next, and
for an injective (non-repeating) random source the two keys differ. -/
theorem C9_distinct_keys_across_attempts {Priv Pub : Type}
    (E : CryptoEnv Priv Pub) (ch ch' : ECACreateChannel)
    (id pw id' pw' : String) (now now' : Int) (n n1 n2 : Nat)
    (k1 k2 : Priv) (c1 m1 c2 m2 : Bytes)
    (h1 : getEnrollmentCertificateFromECA E ch id pw now n
        = (.ok (k1, c1, m1), n1))
    (h2 : getEnrollmentCertificateFromECA E ch' id' pw' now' n1
        = (.ok (k2, c2, m2), n2)) :
    k1 = E.keyOf n ∧ k2 = E.keyOf n1 ∧ n < n1 ∧
      (Function.Injective E.keyOf → k1 ≠ k2) := by
  obtain ⟨hk1, hn1⟩ := getEnrollment_ok_key E ch id pw now n n1 k1 c1 m1 h1
  obtain ⟨hk2, hn2⟩ := getEnrollment_ok_key E ch' id' pw' now' n1 n2 k2 c2 m2 h2
  subst hn1
  refine ⟨hk1, hk2, by omega, ?_⟩
  intro hinj
  rw [hk1, hk2]
  intro heq
  have := hinj heq
  omega

/-- Witness for C9: two concrete sequential calls yield the keys drawn at
positions 0 and 2. -/
theorem C9_distinct_keys_across_attempts_witness :
    (0 : Nat) = E0.keyOf 0 ∧ (2 : Nat) = E0.keyOf 2 ∧ 0 < 2 ∧
      (Function.Injective E0.keyOf → (0 : Nat) ≠ 2) :=
  C9_distinct_keys_across_attempts E0 cc0 cc0 "alice" "pw123" "bob" "pw456"
    17 18 0 2 4 0 2 [7] [8] [7] [8] rfl rfl

/-- C10: every enrollment request built by getEnrollmentCertificateFromECA
carries the timestamp (now, 0) — seconds from the wall clock value `now`
(time.Now().Unix()), nanoseconds exactly zero — and consequently the
CreateCertificate channel is only ever invoked on requests whose timestamp
is (now, 0). -/
theorem C10_timestamp_zero_nanos {Priv Pub : Type} (E : CryptoEnv Priv Pub)
    (ch : ECACreateChannel) (id pw : String) (now : Int) (n : Nat) :
    (∀ (priv : Priv) (m : Nat) (req : ECertCreateReq),
        buildSignedECertCreateReq E priv id pw now m = .ok req →
        req.ts = ⟨now, 0⟩) ∧
    getEnrollmentCertificateFromECA E
        ⟨ch.dialErr, fun r =>
          if r.ts = ⟨now, 0⟩ then ch.CreateCertificate r
          else .error "unexpected timestamp"⟩
        id pw now n
      = getEnrollmentCertificateFromECA E ch id pw now n := by
  have hbuild_ts : ∀ (priv : Priv) (m : Nat) (req : ECertCreateReq),
      buildSignedECertCreateReq E priv id pw now m = .ok req →
      req.ts = ⟨now, 0⟩ := by
    intro priv m req h
    simp only [buildSignedECertCreateReq] at h
    rcases hs : E.ecdsaSign priv m (E.hash (E.protoMarshal
        ⟨⟨now, 0⟩, id, pw, ⟨.ECDSA, (E.marshalPKIXPublicKey (E.publicKey priv)).1⟩,
          none⟩).1) with e | ⟨r, s⟩
    · rw [hs] at h
      simp at h
    · rw [hs] at h
      simp only [Except.ok.injEq] at h
      subst h
      rfl
  refine ⟨hbuild_ts, ?_⟩
  unfold getEnrollmentCertificateFromECA
  rcases hk : E.keyGenErr n with _ | e
  · rcases hb : buildSignedECertCreateReq E (E.keyOf n) id pw now (n + 1)
      with e | req
    · simp [hb]
    · have hts := hbuild_ts (E.keyOf n) (n + 1) req hb
      simp [hb, callECACreateCertificate, hts]
  · simp

/-- Witness for C10: the concrete request carries timestamp (17, 0). -/
theorem C10_timestamp_zero_nanos_witness : enrollReq0.ts = ⟨17, 0⟩ :=
  (C10_timestamp_zero_nanos E0 cc0 "alice" "pw123" 17 0).1 5 1 enrollReq0 rfl

end NodeEca
